import Mathlib

/-!
Shallow embedding of the core of the Roguelike repository (actions.py,
game_map.py, input_handlers.py, components/ai.py, message_log.py),
together with theorems checking the frozen claims of the specification
against it.  Components of the repository whose files are not present
(entity.py, engine.py, components/fighter.py, components/inventory.py,
color.py) are modelled from the spec where needed; such definitions are
marked in their doc comments.
-/

/-- Colors used by message-log calls.  Modelled from the spec: color.py is
not among the provided sources; only the identity of the constants
matters to the claims. -/
inductive ColorName
  | white
  | player_atk
  | enemy_atk
  | impossible
  | invalid
  | err
deriving DecidableEq, Repr

/-- A message of message_log.py: plain text, color and a stack counter. -/
structure Message where
  plain_text : String
  fg : ColorName
  count : Nat
deriving DecidableEq, Repr

/-- MessageLog.add_message from src/message_log.py: when `stack` is true and
the text equals the last entry's text, the last entry's counter is
incremented instead of appending a new entry. -/
def MessageLog.add_message (log : List Message) (text : String) (fg : ColorName)
    (stack : Bool) : List Message :=
  match log.getLast? with
  | some last =>
    if stack && (text == last.plain_text) then
      log.dropLast ++ [{ last with count := last.count + 1 }]
    else
      log ++ [{ plain_text := text, fg := fg, count := 1 }]
  | none => log ++ [{ plain_text := text, fg := fg, count := 1 }]

/-- Fighter component.  Modelled from the spec: components/fighter.py is not
among the provided sources; the spec gives `Fighter {hp, max_hp, power,
defense}` with hp clamped at 0 (and at max_hp) by the Fighter owner. -/
structure Fighter where
  hp : Int
  max_hp : Int
  power : Int
  defense : Int
deriving DecidableEq, Repr

/-- An item held in an inventory.  Modelled from the spec: the Inventory
component file is not among the provided sources; an inventory is a list
of items with a capacity. -/
structure PickedItem where
  eid : Nat
  name : String
deriving DecidableEq, Repr

/-- Polymorphic AI state of an actor (components/ai.py): a hostile AI caches
a path; a confused AI wraps the previous AI value and a remaining-turn
counter; `no_ai` stands for Python's None. -/
inductive AIRec
  | hostile (path : List (Int × Int))
  | confused (previous_ai : AIRec) (turns_remaining : Int)
  | no_ai
deriving DecidableEq, Repr

/-- An entity.  Modelled from the spec: entity.py is not among the provided
sources; the spec describes identity, integer position, and the optional
capability set (Fighter, AI, Inventory) which is flattened into optional
fields here.  `is_alive` is the aliveness queried by GameMap.actors. -/
structure Entity where
  eid : Nat
  x : Int
  y : Int
  name : String
  blocks_movement : Bool
  is_actor : Bool
  is_alive : Bool
  is_item : Bool
  fighter : Fighter
  ai : AIRec
  inv_items : List PickedItem
  inv_capacity : Nat
deriving DecidableEq, Repr

instance : Inhabited Entity :=
  ⟨{ eid := 0, x := 0, y := 0, name := "", blocks_movement := false,
     is_actor := false, is_alive := false, is_item := false,
     fighter := ⟨0, 0, 0, 0⟩, ai := .no_ai, inv_items := [], inv_capacity := 0 }⟩

/-- GameMap of src/game_map.py: dimensions, the static walkable grid
(indexed `walkable[x][y]` like `tiles["walkable"][x, y]`), the visible set
(as the list of visible cells), and the entity set (as a list).  -/
structure GameMap where
  width : Int
  height : Int
  walkable : List (List Bool)
  visible : List (Int × Int)
  entities : List Entity
deriving DecidableEq, Repr

/-- GameMap.in_bounds from src/game_map.py. -/
def GameMap.in_bounds (m : GameMap) (x y : Int) : Bool :=
  decide (0 ≤ x) && decide (x < m.width) && decide (0 ≤ y) && decide (y < m.height)

/-- Lookup of `tiles["walkable"][x, y]`; cells outside the stored grid read
as non-walkable (the source only indexes the array inside bounds). -/
def GameMap.tile_walkable (m : GameMap) (x y : Int) : Bool :=
  if x < 0 || y < 0 then false
  else ((m.walkable.getD x.toNat []).getD y.toNat false)

/-- GameMap.actors from src/game_map.py: the alive actors on the map. -/
def GameMap.actors (m : GameMap) : List Entity :=
  m.entities.filter (fun e => e.is_actor && e.is_alive)

/-- GameMap.get_blocking_entity_at_location from src/game_map.py. -/
def GameMap.get_blocking_entity_at_location (m : GameMap) (x y : Int) :
    Option Entity :=
  m.entities.find? (fun e => e.blocks_movement && e.x == x && e.y == y)

/-- GameMap.get_actor_at_location from src/game_map.py: searches only the
alive actors. -/
def GameMap.get_actor_at_location (m : GameMap) (x y : Int) : Option Entity :=
  m.actors.find? (fun a => a.x == x && a.y == y)

/-- Modelled from the spec: a GameMap.items accessor (the items among the
map's entities) is referenced by PickupAction.perform but absent from
src/game_map.py. -/
def GameMap.items (m : GameMap) : List Entity :=
  m.entities.filter (fun e => e.is_item)

/-- Fetch the entity with the given id (entities are addressed by identity
in the source; ids model object identity). -/
def GameMap.entity_by_id (m : GameMap) (eid : Nat) : Entity :=
  (m.entities.find? (fun e => e.eid == eid)).getD default

/-- Replace the entity sharing `e`'s identity (models in-place mutation of
the entity object). -/
def GameMap.set_entity (m : GameMap) (e : Entity) : GameMap :=
  { m with entities := m.entities.map (fun o => if o.eid == e.eid then e else o) }

/-- `entities.remove(item)` on the entity set. -/
def GameMap.remove_entity (m : GameMap) (eid : Nat) : GameMap :=
  { m with entities := m.entities.filter (fun o => o.eid != eid) }

/-- World state reachable from an action: the map, the message log, and the
id of the player entity (engine.player). -/
structure EState where
  game_map : GameMap
  log : List Message
  player_id : Nat
deriving DecidableEq, Repr

/-- engine.message_log.add_message with the default stack=True. -/
def EState.add_message (s : EState) (text : String) (fg : ColorName) : EState :=
  { s with log := MessageLog.add_message s.log text fg true }

/-- Overwrite `entity.ai` of the entity with the given id (models the
aliased in-place mutation of the AI object owned by the actor). -/
def EState.set_ai (s : EState) (aid : Nat) (a : AIRec) : EState :=
  let e := s.game_map.entity_by_id aid
  { s with game_map := s.game_map.set_entity { e with ai := a } }

/-- Python str.capitalize: first character upper-cased, the rest lowered. -/
def pyCapitalize (s : String) : String :=
  match s.data with
  | [] => s
  | c :: rest => String.mk (c.toUpper :: rest.map Char.toLower)

/-- Fighter hp setter.  Modelled from the spec: the Fighter owner clamps hp
into [0, max_hp]; at 0 the actor stops being queried as alive. -/
def Entity.apply_hp (e : Entity) (value : Int) : Entity :=
  let newHp := max 0 (min value e.fighter.max_hp)
  { e with fighter := { e.fighter with hp := newHp },
           is_alive := if newHp ≤ 0 then false else e.is_alive }

/-- MeleeAction.perform from src/actions.py. -/
def melee_perform (s : EState) (aid : Nat) (dx dy : Int) : Except String EState :=
  let e := s.game_map.entity_by_id aid
  match s.game_map.get_actor_at_location (e.x + dx) (e.y + dy) with
  | none => .error "Nothing to attack."
  | some target =>
    let damage := e.fighter.power - target.fighter.defense
    let attack_desc := pyCapitalize e.name ++ " attacks " ++ target.name
    let attack_color := if aid == s.player_id then ColorName.player_atk
                        else ColorName.enemy_atk
    if damage > 0 then
      let s1 := s.add_message (attack_desc ++ " for " ++ toString damage ++ " hit points.") attack_color
      .ok { s1 with game_map :=
              s1.game_map.set_entity (target.apply_hp (target.fighter.hp - damage)) }
    else
      .ok (s.add_message (attack_desc ++ " but does no damage.") attack_color)

/-- The three checks of MovementAction.perform, in source order. -/
inductive MoveCheck
  | in_bounds_check
  | walkable_check
  | blocking_check
deriving DecidableEq, Repr

/-- MovementAction.perform from src/actions.py, instrumented with the list
of checks that were evaluated (in evaluation order). -/
def movement_perform_instr (s : EState) (aid : Nat) (dx dy : Int) :
    Except String EState × List MoveCheck :=
  let e := s.game_map.entity_by_id aid
  let dest_x := e.x + dx
  let dest_y := e.y + dy
  if !(s.game_map.in_bounds dest_x dest_y) then
    (.error "That way is blocked.", [.in_bounds_check])
  else if !(s.game_map.tile_walkable dest_x dest_y) then
    (.error "That way is blocked.", [.in_bounds_check, .walkable_check])
  else if (s.game_map.get_blocking_entity_at_location dest_x dest_y).isSome then
    (.error "That way is blocked.",
     [.in_bounds_check, .walkable_check, .blocking_check])
  else
    (.ok { s with game_map := s.game_map.set_entity { e with x := e.x + dx, y := e.y + dy } },
     [.in_bounds_check, .walkable_check, .blocking_check])

/-- MovementAction.perform (result only). -/
def movement_perform (s : EState) (aid : Nat) (dx dy : Int) : Except String EState :=
  (movement_perform_instr s aid dx dy).1

/-- BumpAction.perform from src/actions.py: dispatches on the alive-actor
lookup at the destination. -/
def bump_perform (s : EState) (aid : Nat) (dx dy : Int) : Except String EState :=
  let e := s.game_map.entity_by_id aid
  if (s.game_map.get_actor_at_location (e.x + dx) (e.y + dy)).isSome then
    melee_perform s aid dx dy
  else
    movement_perform s aid dx dy

/-- PickupAction.perform from src/actions.py.  The source iterates over all
map items without comparing their position to the actor's (the
`actor_location_x/y` locals are computed but never used), so the loop
reduces to: take the first item of the map, if any. -/
def pickup_perform (s : EState) (aid : Nat) : Except String EState :=
  let e := s.game_map.entity_by_id aid
  match s.game_map.items.head? with
  | none => .error "There is nothing here to pick up."
  | some item =>
    if e.inv_capacity ≤ e.inv_items.length then
      .error "Your inventory is full."
    else
      let m1 := (s.game_map.remove_entity item.eid).set_entity
        { e with inv_items := e.inv_items ++ [⟨item.eid, item.name⟩] }
      .ok ({ s with game_map := m1 }.add_message
             ("You picked up the " ++ item.name ++ "!") ColorName.white)

/-- The player-submittable actions modelled here (WaitAction and the
ActionWithDirection family of src/actions.py, plus PickupAction). -/
inductive GAction
  | wait
  | pickup
  | movement (dx dy : Int)
  | melee (dx dy : Int)
  | bump (dx dy : Int)
deriving DecidableEq, Repr

/-- Dispatch of Action.perform over the modelled action variants. -/
def perform_action (s : EState) (aid : Nat) : GAction → Except String EState
  | .wait => .ok s
  | .pickup => pickup_perform s aid
  | .movement dx dy => movement_perform s aid dx dy
  | .melee dx dy => melee_perform s aid dx dy
  | .bump dx dy => bump_perform s aid dx dy

/-- Result of EventHandler.handle_action: the state afterwards, how many
times the enemy phase and the visibility recompute were invoked during
the call, and whether the turn advanced. -/
structure TurnResult where
  state : EState
  enemy_phase_calls : Nat
  fov_calls : Nat
  advanced : Bool
deriving DecidableEq, Repr

/-- EventHandler.handle_action from src/input_handlers.py, parametric in the
engine collaborators handle_enemy_turns and update_fov (engine.py is not
among the provided sources); the counters record how often each was
invoked. -/
def handle_action (enemy_phase update_fov : EState → EState)
    (s : EState) (aid : Nat) (action : Option GAction) : TurnResult :=
  match action with
  | none => ⟨s, 0, 0, false⟩
  | some a =>
    match perform_action s aid a with
    | .error msg => ⟨s.add_message msg ColorName.impossible, 0, 0, false⟩
    | .ok s1 => ⟨update_fov (enemy_phase s1), 1, 1, true⟩

/-- Projection of a successful perform result. -/
def ok_state : Except String EState → Option EState
  | .ok s => some s
  | .error _ => none

instance : DecidableEq (Except String EState) := fun a b =>
  match a, b with
  | .ok x, .ok y =>
    if h : x = y then isTrue (by rw [h]) else isFalse (by intro hc; cases hc; exact h rfl)
  | .error x, .error y =>
    if h : x = y then isTrue (by rw [h]) else isFalse (by intro hc; cases hc; exact h rfl)
  | .ok _, .error _ => isFalse (by intro hc; cases hc)
  | .error _, .ok _ => isFalse (by intro hc; cases hc)

/-! ### Pathfinding (BaseAI.get_path_to, src/components/ai.py) -/

/-- The 8 compass directions, in the order they are listed in
ConfusedEnemy.perform (NW, N, NE, W, E, SW, S, SE); the same neighborhood
is used by the 8-directional path search. -/
def compassDirs : List (Int × Int) :=
  [(-1, -1), (0, -1), (1, -1), (-1, 0), (1, 0), (-1, 1), (0, 1), (1, 1)]

/-- `cost = np.array(walkable, dtype=int8)`: walkable cells start at 1,
others at 0. -/
def base_cost (m : GameMap) : Int × Int → Int :=
  fun c => if m.tile_walkable c.1 c.2 then 1 else 0

/-- Reduction of a value into the signed 8-bit range [-128, 127], as numpy
int8 arithmetic wraps. -/
def int8_wrap (v : Int) : Int :=
  (v + 128) % 256 - 128

/-- One iteration of the entity loop of get_path_to: if the entity blocks
movement and the cell's current cost is nonzero, add 10 to that cell in
the cost array's wrapping int8 arithmetic. -/
def add_entity_cost (g : Int × Int → Int) (e : Entity) : Int × Int → Int :=
  if e.blocks_movement && !(g (e.x, e.y) == 0) then
    fun c => if c = (e.x, e.y) then int8_wrap (g c + 10) else g c
  else g

/-- The cost grid built by get_path_to.  The source loops over
`self.entity.gamemap.entities`, the acting entity included. -/
def cost_grid (m : GameMap) : Int × Int → Int :=
  m.entities.foldl add_entity_cost (base_cost m)

/-- Definition following the spec's words, for comparison with `cost_grid`:
the penalty is added only for blocking entities other than the acting
entity. -/
def cost_grid_spec (m : GameMap) (aid : Nat) : Int × Int → Int :=
  (m.entities.filter (fun e => e.eid != aid)).foldl add_entity_cost (base_cost m)

/-- Number of blocking entities standing on a cell. -/
def blockers_at (m : GameMap) (c : Int × Int) : Nat :=
  (m.entities.filter (fun e => e.blocks_movement && e.x == c.1 && e.y == c.2)).length

/-- Step factor of tcod.path.SimpleGraph(cost, cardinal = 2, diagonal = 3):
entering a neighbor costs its grid value times 2 on a cardinal step and
times 3 on a diagonal step. -/
def step_mult (d : Int × Int) : Int :=
  if d.1 == 0 || d.2 == 0 then 2 else 3

/-- A search node: accumulated cost and the cells walked so far, stored in
reverse (head = current cell, last = root). -/
structure PNode where
  cost : Int
  path : List (Int × Int)
deriving DecidableEq, Repr

/-- Extract a minimum-cost node from the frontier. -/
def pick_min : List PNode → Option (PNode × List PNode)
  | [] => none
  | n :: rest =>
    match pick_min rest with
    | none => some (n, [])
    | some (b, others) =>
      if n.cost ≤ b.cost then some (n, rest) else some (b, n :: others)

/-- Expand a node: the 8 neighbors whose cost is nonzero (zero cost means
blocked in SimpleGraph). -/
def successors (g : Int × Int → Int) (n : PNode) (c : Int × Int) : List PNode :=
  compassDirs.filterMap (fun d =>
    let q := (c.1 + d.1, c.2 + d.2)
    if g q == 0 then none
    else some ⟨n.cost + g q * step_mult d, q :: n.path⟩)

/-- Fuel-bounded uniform-cost search modelling tcod.path.Pathfinder over a
SimpleGraph; returns the root-to-destination cell list when the
destination is settled. -/
def dijkstra (g : Int × Int → Int) (dest : Int × Int) :
    Nat → List (Int × Int) → List PNode → Option (List (Int × Int))
  | 0, _, _ => none
  | Nat.succ fuel, settled, frontier =>
    match pick_min frontier with
    | none => none
    | some (n, rest) =>
      match n.path with
      | [] => none
      | c :: _ =>
        if settled.contains c then dijkstra g dest fuel settled rest
        else if c = dest then some n.path.reverse
        else dijkstra g dest fuel (c :: settled) (rest ++ successors g n c)

/-- Enough fuel to exhaust the search: every iteration pops one node, and at
most 8 nodes are pushed per settled cell of the `width × height` grid. -/
def path_fuel (m : GameMap) : Nat :=
  8 * (m.width.toNat * m.height.toNat) + 2

/-- BaseAI.get_path_to from src/components/ai.py: build the cost grid, run
the search from the actor's position and drop the starting cell
(`path_to(...)[1:]`; an unreachable target yields only the root, hence an
empty result). -/
def get_path_to (m : GameMap) (aid : Nat) (dest_x dest_y : Int) :
    List (Int × Int) :=
  let g := cost_grid m
  let e := m.entity_by_id aid
  let root : Int × Int := (e.x, e.y)
  let full := (dijkstra g (dest_x, dest_y) (path_fuel m) [] [⟨0, [root]⟩]).getD [root]
  full.drop 1

/-- A root-first cell list is a chain: consecutive cells are one king move
apart and every cell entered has nonzero cost. -/
def chain_ok_b (g : Int × Int → Int) : List (Int × Int) → Bool
  | [] => true
  | [_] => true
  | a :: b :: tl =>
    (max (b.1 - a.1).natAbs (b.2 - a.2).natAbs == 1) && !(g b == 0)
      && chain_ok_b g (b :: tl)

/-- One admissible step of the search: a king move into a nonzero-cost
cell. -/
def path_step (g : Int × Int → Int) (a b : Int × Int) : Prop :=
  max (b.1 - a.1).natAbs (b.2 - a.2).natAbs = 1 ∧ ¬ g b = 0

/-- Reachability along admissible steps. -/
def reachable (g : Int × Int → Int) : Int × Int → Int × Int → Prop :=
  Relation.ReflTransGen (path_step g)

/-! ### AI decisions (src/components/ai.py) -/

/-- The action an AI decision resolved to. -/
inductive ActKind
  | melee_act (dx dy : Int)
  | move_act (dx dy : Int)
  | bump_act (dx dy : Int)
  | wait_act
  | none_act
deriving DecidableEq, Repr

/-- Outcome of one AI decision: the state afterwards (mutations made before
a raise are kept, as the enemy phase swallows Impossible), the action the
decision resolved to, and the swallowed failure message if one was
raised. -/
structure DecideResult where
  state : EState
  act : ActKind
  raised : Option String
deriving DecidableEq, Repr

/-- The direction `random.choice` picked, given the chosen index into the
8-element direction list. -/
def compass_dir (i : Fin 8) : Int × Int :=
  compassDirs.getD i.1 (0, 0)

/-- ConfusedEnemy.perform from src/components/ai.py, with the uniformly
random `random.choice` modelled by the chosen index `i`. -/
def confused_perform (s : EState) (aid : Nat) (previous_ai : AIRec)
    (turns_remaining : Int) (i : Fin 8) : DecideResult :=
  let e := s.game_map.entity_by_id aid
  if turns_remaining ≤ 0 then
    let s1 := s.add_message ("The " ++ e.name ++ " is no longer confused.")
      ColorName.white
    ⟨s1.set_ai aid previous_ai, .none_act, none⟩
  else
    let d := compass_dir i
    let s1 := s.set_ai aid (AIRec.confused previous_ai (turns_remaining - 1))
    match bump_perform s1 aid d.1 d.2 with
    | .ok s2 => ⟨s2, .bump_act d.1 d.2, none⟩
    | .error msg => ⟨s1, .bump_act d.1 d.2, some msg⟩

/-- The `if self.path:` tail of HostileEnemy.perform: pop the next waypoint
and move toward it, else wait. -/
def hostile_follow (s : EState) (aid : Nat) (path : List (Int × Int)) :
    DecideResult :=
  match path with
  | [] => ⟨s, .wait_act, none⟩
  | w :: rest =>
    let s1 := s.set_ai aid (AIRec.hostile rest)
    let e1 := s1.game_map.entity_by_id aid
    match movement_perform s1 aid (w.1 - e1.x) (w.2 - e1.y) with
    | .ok s2 => ⟨s2, .move_act (w.1 - e1.x) (w.2 - e1.y), none⟩
    | .error msg => ⟨s1, .move_act (w.1 - e1.x) (w.2 - e1.y), some msg⟩

/-- HostileEnemy.perform from src/components/ai.py; `path0` is the cached
path held by the AI object. -/
def hostile_perform (s : EState) (aid : Nat) (path0 : List (Int × Int)) :
    DecideResult :=
  let e := s.game_map.entity_by_id aid
  let t := s.game_map.entity_by_id s.player_id
  let dx := t.x - e.x
  let dy := t.y - e.y
  let distance : Nat := max dx.natAbs dy.natAbs
  if s.game_map.visible.contains (e.x, e.y) then
    if distance ≤ 1 then
      match melee_perform s aid dx dy with
      | .ok s2 => ⟨s2, .melee_act dx dy, none⟩
      | .error msg => ⟨s, .melee_act dx dy, some msg⟩
    else
      let new_path := get_path_to s.game_map aid t.x t.y
      hostile_follow (s.set_ai aid (AIRec.hostile new_path)) aid new_path
  else
    hostile_follow s aid path0

/-- One enemy-phase decision: dispatch on the actor's current AI value. -/
def ai_decide (s : EState) (aid : Nat) (i : Fin 8) : DecideResult :=
  match (s.game_map.entity_by_id aid).ai with
  | .confused prev turns => confused_perform s aid prev turns i
  | .hostile path => hostile_perform s aid path
  | .no_ai => ⟨s, .none_act, none⟩

/-- The reversion message of ConfusedEnemy.perform for a given actor
name. -/
def reversion_text (name : String) : String :=
  "The " ++ name ++ " is no longer confused."

/-- Total number of times a text occurs in the log, stack counters
included. -/
def count_text (log : List Message) (t : String) : Nat :=
  ((log.filter (fun msg => msg.plain_text == t)).map (fun msg => msg.count)).sum

/-- Three consecutive AI decisions for one actor. -/
def decide3 (s : EState) (aid : Nat) (i1 i2 i3 : Fin 8) : EState :=
  (ai_decide ((ai_decide ((ai_decide s aid i1).state) aid i2).state) aid i3).state

/-! ### History viewer (HistoryViewer.ev_keydown, src/input_handlers.py) -/

/-- The keys the history viewer reacts to. -/
inductive VKey
  | up
  | down
  | pageup
  | pagedown
  | home
  | kEnd
  | other
deriving DecidableEq, Repr

/-- CURSOR_Y_KEYS from src/input_handlers.py. -/
def cursor_y_adjust : VKey → Option Int
  | .up => some (-1)
  | .down => some 1
  | .pageup => some (-10)
  | .pagedown => some 10
  | _ => none

/-- Result of a history-viewer key event: the new cursor and whether control
returns to MainGame. -/
structure ViewerResult where
  cursor : Int
  to_main : Bool
deriving DecidableEq, Repr

/-- HistoryViewer.ev_keydown from src/input_handlers.py. -/
def history_ev_keydown (log_length cursor : Int) (k : VKey) : ViewerResult :=
  match cursor_y_adjust k with
  | some adjust =>
    if adjust < 0 && cursor == 0 then ⟨log_length - 1, false⟩
    else if adjust > 0 && cursor == log_length - 1 then ⟨0, false⟩
    else ⟨max 0 (min (cursor + adjust) (log_length - 1)), false⟩
  | none =>
    match k with
    | .home => ⟨0, false⟩
    | .kEnd => ⟨log_length - 1, false⟩
    | _ => ⟨cursor, true⟩

/-! ### Inventory selection (src/input_handlers.py) -/

/-- The keycode of the letter `a` (tcod.event.K_a = 97). -/
def K_a : Int := 97

/-- The modifier keycodes ignored by AskUserEventHandler.ev_keydown
(tcod.event K_LSHIFT, K_RSHIFT, K_LCTRL, K_RCTRL, K_LALT, K_RALT). -/
def MODIFIER_KEYS : List Int :=
  [1073742049, 1073742053, 1073742048, 1073742052, 1073742050, 1073742054]

/-- What an inventory-handler key event resolves to.  `selected` yields the
item at the slot; `invalid_entry` logs "Invalid entry." and keeps the
handler active; `stay` keeps it active silently; `to_main` switches to
MainGameEventHandler. -/
inductive InvKeyResult
  | selected (slot : Nat)
  | invalid_entry
  | stay
  | to_main
deriving DecidableEq, Repr

/-- AskUserEventHandler.ev_keydown from src/input_handlers.py: modifier keys
are ignored, anything else exits to MainGame. -/
def ask_user_ev_keydown (sym : Int) : InvKeyResult :=
  if MODIFIER_KEYS.contains sym then .stay else .to_main

/-- AskUserEventHandler.ev_mousebuttondown: any click exits to MainGame. -/
def ask_user_ev_mousebuttondown : InvKeyResult :=
  .to_main

/-- InventoryEventHandler.ev_keydown from src/input_handlers.py:
`index = key - K_a`, accepted when `0 <= index <= 26`; an index without
an item is the IndexError path. -/
def inventory_ev_keydown (num_items : Nat) (sym : Int) : InvKeyResult :=
  let index := sym - K_a
  if decide (0 ≤ index) && decide (index ≤ 26) then
    if index.toNat < num_items then .selected index.toNat else .invalid_entry
  else ask_user_ev_keydown sym

/-! ### Concrete states used by witnesses and counterexamples -/

/-- A generic alive player actor at the origin. -/
def wActor : Entity :=
  { eid := 1, x := 0, y := 0, name := "Player", blocks_movement := true,
    is_actor := true, is_alive := true, is_item := false,
    fighter := ⟨30, 30, 5, 2⟩, ai := .no_ai, inv_items := [], inv_capacity := 1 }

/-- Map for the movement witnesses: a 3×1 corridor whose middle tile is a
wall. -/
def c4state : EState :=
  { game_map := { width := 3, height := 1, walkable := [[true], [false], [true]],
                  visible := [], entities := [wActor] },
    log := [], player_id := 1 }

/-- Pickup failing input: the player stands at (0, 0) and the only item on
the map lies at (3, 3). -/
def c1state : EState :=
  { game_map := { width := 4, height := 4,
                  walkable := [[true, true, true, true], [true, true, true, true],
                               [true, true, true, true], [true, true, true, true]],
                  visible := [],
                  entities := [wActor,
                    { eid := 2, x := 3, y := 3, name := "Health Potion",
                      blocks_movement := false, is_actor := false, is_alive := false,
                      is_item := true, fighter := ⟨0, 0, 0, 0⟩, ai := .no_ai,
                      inv_items := [], inv_capacity := 0 }] },
    log := [], player_id := 1 }

/-- A defender with 2 hp against the 5-power player: damage 3 exceeds the
remaining hp. -/
def c5target : Entity :=
  { eid := 2, x := 1, y := 0, name := "orc", blocks_movement := true,
    is_actor := true, is_alive := true, is_item := false,
    fighter := ⟨2, 10, 3, 2⟩, ai := .hostile [], inv_items := [], inv_capacity := 0 }

/-- Melee counterexample state: player at (0, 0), 2-hp orc at (1, 0). -/
def c5state : EState :=
  { game_map := { width := 2, height := 1, walkable := [[true], [true]],
                  visible := [], entities := [wActor, c5target] },
    log := [], player_id := 1 }

/-- The witness orc: same fight, but with 10 hp. -/
def c5wtarget : Entity :=
  { c5target with fighter := ⟨10, 10, 3, 2⟩ }

/-- Melee witness state: player at (0, 0), 10-hp orc at (1, 0). -/
def c5wstate : EState :=
  { game_map := { width := 2, height := 1, walkable := [[true], [true]],
                  visible := [],
                  entities := [wActor, c5wtarget] },
    log := [], player_id := 1 }

/-- Bump witness state: player at (0, 0) and a dead-but-blocking corpse at
(1, 0): it blocks movement yet is excluded from the alive-actor lookup. -/
def c10state : EState :=
  { game_map := { width := 2, height := 1, walkable := [[true], [true]],
                  visible := [],
                  entities := [wActor,
                    { eid := 2, x := 1, y := 0, name := "corpse of orc",
                      blocks_movement := true, is_actor := true, is_alive := false,
                      is_item := false, fighter := ⟨0, 10, 3, 2⟩, ai := .no_ai,
                      inv_items := [], inv_capacity := 0 }] },
    log := [], player_id := 1 }

/-- Pathfinding witness map: a single walkable cell occupied by the blocking
acting entity itself. -/
def c2wmap : GameMap :=
  { width := 1, height := 1, walkable := [[true]], visible := [],
    entities := [wActor] }

/-- The confused orc of the confusion scenario: boxed in at (1, 1),
confused for 2 turns around a wrapped hostile AI. -/
def c6orc : Entity :=
  { eid := 2, x := 1, y := 1, name := "Orc", blocks_movement := true,
    is_actor := true, is_alive := true, is_item := false,
    fighter := ⟨10, 10, 3, 0⟩, ai := .confused (.hostile []) 2,
    inv_items := [], inv_capacity := 0 }

/-- Confusion scenario: the confused orc boxed in by walls at (1, 1); the
player stands out of king-move range at (3, 1). -/
def c6state : EState :=
  { game_map := { width := 5, height := 3,
                  walkable := [[false, false, false], [false, true, false],
                               [false, false, false], [false, true, false],
                               [false, false, false]],
                  visible := [],
                  entities := [{ wActor with x := 3, y := 1 }, c6orc] },
    log := [], player_id := 1 }

/-- The hostile orc of the stale-path scenario: unseen at (0, 0), holding a
cached path toward (1, 0). -/
def c8orc : Entity :=
  { eid := 2, x := 0, y := 0, name := "Orc", blocks_movement := true,
    is_actor := true, is_alive := true, is_item := false,
    fighter := ⟨10, 10, 3, 0⟩, ai := .hostile [(1, 0)],
    inv_items := [], inv_capacity := 0 }

/-- Hostile stale-path scenario: the unseen orc at (0, 0); the player is at
(2, 0). -/
def c8state : EState :=
  { game_map := { width := 3, height := 1, walkable := [[true], [true], [true]],
                  visible := [],
                  entities := [{ wActor with x := 2, y := 0 }, c8orc] },
    log := [], player_id := 1 }

/-! ### Helper lemmas about identity lookup and replacement -/

theorem find?_replace_self (l : List Entity) (aid : Nat) (e0 enew : Entity)
    (hfind : l.find? (fun e => e.eid == aid) = some e0) (hid : enew.eid = aid) :
    (l.map (fun o => if o.eid == enew.eid then enew else o)).find?
        (fun e => e.eid == aid) = some enew := by
  induction l with
  | nil => simp at hfind
  | cons h t ih =>
    simp only [List.map_cons]
    by_cases hh : h.eid = aid
    · have hrw : (if h.eid == enew.eid then enew else h) = enew := by
        simp [hh, hid]
      rw [hrw]
      exact @List.find?_cons_of_pos Entity (fun e => e.eid == aid) enew _
        (by simp [hid])
    · have hrw : (if h.eid == enew.eid then enew else h) = h := by
        have hne : ¬ h.eid = enew.eid := by rw [hid]; exact hh
        simp [hne]
      rw [hrw]
      rw [@List.find?_cons_of_neg Entity (fun e => e.eid == aid) h _ (by simp [hh])]
      apply ih
      rwa [@List.find?_cons_of_neg Entity (fun e => e.eid == aid) h t (by simp [hh])]
        at hfind

theorem find?_replace_other (l : List Entity) (bid : Nat) (enew : Entity)
    (h : ¬ enew.eid = bid) :
    (l.map (fun o => if o.eid == enew.eid then enew else o)).find?
        (fun e => e.eid == bid) = l.find? (fun e => e.eid == bid) := by
  induction l with
  | nil => rfl
  | cons hd t ih =>
    simp only [List.map_cons]
    by_cases hh : hd.eid = enew.eid
    · have hrw : (if hd.eid == enew.eid then enew else hd) = enew := by simp [hh]
      rw [hrw]
      rw [@List.find?_cons_of_neg Entity (fun e => e.eid == bid) enew _
            (by simp only [beq_iff_eq]; exact h),
          @List.find?_cons_of_neg Entity (fun e => e.eid == bid) hd t
            (by simp only [beq_iff_eq, hh]; exact h)]
      exact ih
    · have hrw : (if hd.eid == enew.eid then enew else hd) = hd := by simp [hh]
      rw [hrw]
      by_cases hb : hd.eid = bid
      · rw [@List.find?_cons_of_pos Entity (fun e => e.eid == bid) hd _ (by simp [hb]),
            @List.find?_cons_of_pos Entity (fun e => e.eid == bid) hd t (by simp [hb])]
      · rw [@List.find?_cons_of_neg Entity (fun e => e.eid == bid) hd _ (by simp [hb]),
            @List.find?_cons_of_neg Entity (fun e => e.eid == bid) hd t (by simp [hb])]
        exact ih

theorem find?_eid_of_mem (l : List Entity) (t : Entity)
    (huniq : (l.map Entity.eid).Nodup) (hmem : t ∈ l) :
    l.find? (fun e => e.eid == t.eid) = some t := by
  induction l with
  | nil => simp at hmem
  | cons h tl ih =>
    rcases List.mem_cons.mp hmem with rfl | hmem2
    · exact @List.find?_cons_of_pos Entity (fun e => e.eid == t.eid) t tl (by simp)
    · by_cases hh : h.eid = t.eid
      · exfalso
        have : t.eid ∈ tl.map Entity.eid := List.mem_map_of_mem _ hmem2
        simp only [List.map_cons, List.nodup_cons] at huniq
        exact huniq.1 (hh ▸ this)
      · rw [@List.find?_cons_of_neg Entity (fun e => e.eid == t.eid) h tl
              (by simp [hh])]
        simp only [List.map_cons, List.nodup_cons] at huniq
        exact ih huniq.2 hmem2

theorem entity_by_id_of_find (m : GameMap) (aid : Nat) (e0 : Entity)
    (hfind : m.entities.find? (fun e => e.eid == aid) = some e0) :
    m.entity_by_id aid = e0 := by
  simp only [GameMap.entity_by_id]
  rw [hfind]
  rfl

theorem entity_by_id_set_self (m : GameMap) (aid : Nat) (e0 enew : Entity)
    (hfind : m.entities.find? (fun e => e.eid == aid) = some e0)
    (hid : enew.eid = aid) :
    (m.set_entity enew).entity_by_id aid = enew := by
  simp only [GameMap.entity_by_id, GameMap.set_entity]
  rw [find?_replace_self m.entities aid e0 enew hfind hid]
  rfl

theorem entity_by_id_set_other (m : GameMap) (bid : Nat) (enew : Entity)
    (h : ¬ enew.eid = bid) :
    (m.set_entity enew).entity_by_id bid = m.entity_by_id bid := by
  simp only [GameMap.entity_by_id, GameMap.set_entity]
  rw [find?_replace_other m.entities bid enew h]

theorem map_eid_set (m : GameMap) (enew : Entity) :
    (m.set_entity enew).entities.map Entity.eid = m.entities.map Entity.eid := by
  simp only [GameMap.set_entity, List.map_map]
  apply List.map_congr_left
  intro o _
  simp only [Function.comp_apply]
  split
  · next hcond =>
      simp only [beq_iff_eq] at hcond
      exact hcond.symm
  · rfl

theorem eid_of_find (l : List Entity) (aid : Nat) (e0 : Entity)
    (hfind : l.find? (fun e => e.eid == aid) = some e0) : e0.eid = aid := by
  have := List.find?_some hfind
  simpa using this

theorem get_actor_props (m : GameMap) (x y : Int) (t : Entity)
    (h : m.get_actor_at_location x y = some t) :
    t ∈ m.entities ∧ t.is_actor = true ∧ t.is_alive = true ∧ t.x = x ∧ t.y = y := by
  simp only [GameMap.get_actor_at_location, GameMap.actors] at h
  have hmem := List.mem_of_find?_eq_some h
  have hpred := List.find?_some h
  have h2 := List.mem_filter.mp hmem
  have h3 := h2.2
  simp only [Bool.and_eq_true, beq_iff_eq] at h3 hpred
  exact ⟨h2.1, h3.1, h3.2, hpred.1, hpred.2⟩

theorem apply_hp_eid (e : Entity) (v : Int) : (e.apply_hp v).eid = e.eid := by
  simp [Entity.apply_hp]

theorem apply_hp_ai (e : Entity) (v : Int) : (e.apply_hp v).ai = e.ai := by
  simp [Entity.apply_hp]

theorem melee_ok_actor_ai (s : EState) (aid : Nat) (dx dy : Int) (e0 : Entity)
    (hfind : s.game_map.entities.find? (fun e => e.eid == aid) = some e0)
    (huniq : (s.game_map.entities.map Entity.eid).Nodup)
    (s2 : EState) (hok : melee_perform s aid dx dy = .ok s2) :
    (s2.game_map.entity_by_id aid).ai = e0.ai := by
  have he := entity_by_id_of_find s.game_map aid e0 hfind
  simp only [melee_perform, he] at hok
  cases hcase : s.game_map.get_actor_at_location (e0.x + dx) (e0.y + dy) with
  | none =>
    rw [hcase] at hok
    cases hok
  | some t =>
    rw [hcase] at hok
    dsimp only at hok
    simp only [gt_iff_lt] at hok
    by_cases hd : 0 < e0.fighter.power - t.fighter.defense
    · rw [if_pos hd] at hok
      have hs2 := hok
      injection hs2 with hs2
      subst hs2
      simp only [EState.add_message]
      by_cases hte : t.eid = aid
      · have hfind2 := find?_eid_of_mem s.game_map.entities t huniq
          (get_actor_props s.game_map _ _ t hcase).1
        rw [hte] at hfind2
        have ht0 : t = e0 := by
          rw [hfind2] at hfind
          exact Option.some.inj hfind
        rw [entity_by_id_set_self s.game_map aid e0 _ hfind
              (by rw [apply_hp_eid]; exact hte)]
        rw [apply_hp_ai, ht0]
      · rw [entity_by_id_set_other s.game_map aid _
              (by rw [apply_hp_eid]; exact hte)]
        rw [he]
    · rw [if_neg hd] at hok
      have hs2 := hok
      injection hs2 with hs2
      subst hs2
      simp only [EState.add_message]
      rw [he]

theorem movement_ok_actor (s : EState) (aid : Nat) (dx dy : Int) (e0 : Entity)
    (hfind : s.game_map.entities.find? (fun e => e.eid == aid) = some e0)
    (s2 : EState) (hok : movement_perform s aid dx dy = .ok s2) :
    s2.game_map.entity_by_id aid = { e0 with x := e0.x + dx, y := e0.y + dy }
    ∧ s2.log = s.log := by
  have he := entity_by_id_of_find s.game_map aid e0 hfind
  have heid := eid_of_find s.game_map.entities aid e0 hfind
  simp only [movement_perform, movement_perform_instr, he] at hok
  by_cases h1 : s.game_map.in_bounds (e0.x + dx) (e0.y + dy) = true
  · rw [h1] at hok
    simp only [Bool.not_true, Bool.false_eq_true, if_false] at hok
    by_cases h2 : s.game_map.tile_walkable (e0.x + dx) (e0.y + dy) = true
    · rw [h2] at hok
      simp only [Bool.not_true, Bool.false_eq_true, if_false] at hok
      by_cases h3 : (s.game_map.get_blocking_entity_at_location (e0.x + dx) (e0.y + dy)).isSome = true
      · rw [if_pos h3] at hok
        cases hok
      · rw [if_neg h3] at hok
        injection hok with hok
        subst hok
        refine ⟨?_, rfl⟩
        exact entity_by_id_set_self s.game_map aid e0 _ hfind heid
    · rw [eq_false_of_ne_true h2] at hok
      simp only [Bool.not_false, if_true] at hok
      cases hok
  · rw [eq_false_of_ne_true h1] at hok
    simp only [Bool.not_false, if_true] at hok
    cases hok

theorem bump_ok_actor_ai (s : EState) (aid : Nat) (dx dy : Int) (e0 : Entity)
    (hfind : s.game_map.entities.find? (fun e => e.eid == aid) = some e0)
    (huniq : (s.game_map.entities.map Entity.eid).Nodup)
    (s2 : EState) (hok : bump_perform s aid dx dy = .ok s2) :
    (s2.game_map.entity_by_id aid).ai = e0.ai := by
  have he := entity_by_id_of_find s.game_map aid e0 hfind
  simp only [bump_perform, he] at hok
  by_cases hc : (s.game_map.get_actor_at_location (e0.x + dx) (e0.y + dy)).isSome = true
  · rw [if_pos hc] at hok
    exact melee_ok_actor_ai s aid dx dy e0 hfind huniq s2 hok
  · rw [if_neg hc] at hok
    rw [(movement_ok_actor s aid dx dy e0 hfind s2 hok).1]

/-! ### Claim theorems -/

/-- C4: MovementAction.perform runs its checks in the fixed order
(1) destination in bounds, (2) destination tile walkable, (3) destination
free of blocking entities; the first failing check raises Impossible with
the same "That way is blocked." message and no later check is evaluated;
when all three pass, the entity is relocated to the destination and the
log is untouched. -/
theorem movement_perform_check_order (s : EState) (aid : Nat) (dx dy : Int)
    (e0 : Entity)
    (hfind : s.game_map.entities.find? (fun e => e.eid == aid) = some e0) :
    (s.game_map.in_bounds (e0.x + dx) (e0.y + dy) = false →
      movement_perform_instr s aid dx dy =
        (.error "That way is blocked.", [.in_bounds_check]))
    ∧ (s.game_map.in_bounds (e0.x + dx) (e0.y + dy) = true →
       s.game_map.tile_walkable (e0.x + dx) (e0.y + dy) = false →
      movement_perform_instr s aid dx dy =
        (.error "That way is blocked.", [.in_bounds_check, .walkable_check]))
    ∧ (s.game_map.in_bounds (e0.x + dx) (e0.y + dy) = true →
       s.game_map.tile_walkable (e0.x + dx) (e0.y + dy) = true →
       (s.game_map.get_blocking_entity_at_location (e0.x + dx) (e0.y + dy)).isSome = true →
      movement_perform_instr s aid dx dy =
        (.error "That way is blocked.",
         [.in_bounds_check, .walkable_check, .blocking_check]))
    ∧ (∀ s2, movement_perform s aid dx dy = .ok s2 →
        s2.game_map.entity_by_id aid = { e0 with x := e0.x + dx, y := e0.y + dy }
        ∧ s2.log = s.log) := by
  have he := entity_by_id_of_find s.game_map aid e0 hfind
  refine ⟨?_, ?_, ?_, fun s2 => movement_ok_actor s aid dx dy e0 hfind s2⟩
  · intro h1
    simp [movement_perform_instr, he, h1]
  · intro h1 h2
    simp [movement_perform_instr, he, h1, h2]
  · intro h1 h2 h3
    simp [movement_perform_instr, he, h1, h2, h3]

/-- Witness for the movement theorem: stepping right from (0, 0) in c4state
passes the bounds check but hits the non-walkable tile (1, 0). -/
theorem movement_perform_check_order_witness :
    c4state.game_map.entities.find? (fun e => e.eid == 1) = some wActor
    ∧ c4state.game_map.in_bounds (wActor.x + 1) (wActor.y + 0) = true
    ∧ c4state.game_map.tile_walkable (wActor.x + 1) (wActor.y + 0) = false
    ∧ movement_perform_instr c4state 1 1 0 =
        (.error "That way is blocked.", [.in_bounds_check, .walkable_check]) :=
  ⟨by decide, by decide, by decide,
   (movement_perform_check_order c4state 1 1 0 wActor (by decide)).2.1
     (by decide) (by decide)⟩

/-- C5 (amended): MeleeAction.perform fails with "Nothing to attack." when
no alive actor occupies the destination; otherwise damage =
attacker.power − defender.defense is computed; if damage > 0 the action
succeeds, logs a hit message spelling out the numeric damage, and the
defender's stored hp becomes hp − damage clamped into [0, max_hp] by the
Fighter owner (exactly damage is subtracted whenever damage ≤ hp); if
damage ≤ 0 the action succeeds with only a "no damage" message logged. -/
theorem melee_perform_resolution (s : EState) (aid : Nat) (dx dy : Int)
    (e0 : Entity)
    (hfind : s.game_map.entities.find? (fun e => e.eid == aid) = some e0)
    (huniq : (s.game_map.entities.map Entity.eid).Nodup) :
    (s.game_map.get_actor_at_location (e0.x + dx) (e0.y + dy) = none →
      melee_perform s aid dx dy = .error "Nothing to attack.")
    ∧ (∀ t0, s.game_map.get_actor_at_location (e0.x + dx) (e0.y + dy) = some t0 →
        (0 < e0.fighter.power - t0.fighter.defense →
          ∃ s2, melee_perform s aid dx dy = .ok s2
            ∧ s2.log = MessageLog.add_message s.log
                (pyCapitalize e0.name ++ " attacks " ++ t0.name ++ " for "
                  ++ toString (e0.fighter.power - t0.fighter.defense) ++ " hit points.")
                (if aid == s.player_id then ColorName.player_atk else ColorName.enemy_atk)
                true
            ∧ (s2.game_map.entity_by_id t0.eid).fighter.hp
                = max 0 (min (t0.fighter.hp - (e0.fighter.power - t0.fighter.defense))
                    t0.fighter.max_hp))
        ∧ (e0.fighter.power - t0.fighter.defense ≤ 0 →
          melee_perform s aid dx dy = .ok (s.add_message
            (pyCapitalize e0.name ++ " attacks " ++ t0.name ++ " but does no damage.")
            (if aid == s.player_id then ColorName.player_atk else ColorName.enemy_atk)))) := by
  have he := entity_by_id_of_find s.game_map aid e0 hfind
  constructor
  · intro hnone
    simp [melee_perform, he, hnone]
  · intro t0 hsome
    constructor
    · intro hd
      have hok : melee_perform s aid dx dy = .ok
          { (s.add_message (pyCapitalize e0.name ++ " attacks " ++ t0.name ++ " for "
              ++ toString (e0.fighter.power - t0.fighter.defense) ++ " hit points.")
              (if aid == s.player_id then ColorName.player_atk else ColorName.enemy_atk)) with
            game_map := s.game_map.set_entity
              (t0.apply_hp (t0.fighter.hp - (e0.fighter.power - t0.fighter.defense))) } := by
        simp only [melee_perform, he, hsome]
        rw [if_pos (show e0.fighter.power - t0.fighter.defense > 0 from hd)]
        rfl
      refine ⟨_, hok, ?_, ?_⟩
      · simp [EState.add_message]
      · have hfind2 := find?_eid_of_mem s.game_map.entities t0 huniq
          (get_actor_props s.game_map _ _ t0 hsome).1
        dsimp only
        rw [entity_by_id_set_self s.game_map t0.eid t0 _ hfind2 (apply_hp_eid t0 _)]
        simp [Entity.apply_hp]
    · intro hd
      simp only [melee_perform, he, hsome]
      rw [if_neg (by omega)]

/-- Witness for the melee theorem: the 5-power player striking the 10-hp,
2-defense orc of c5wstate deals exactly 3 damage, leaving 7 hp. -/
theorem melee_perform_resolution_witness :
    (0 : Int) < wActor.fighter.power - c5wtarget.fighter.defense
    ∧ ∃ s2, melee_perform c5wstate 1 1 0 = .ok s2
        ∧ s2.log = MessageLog.add_message c5wstate.log
            (pyCapitalize wActor.name ++ " attacks " ++ c5wtarget.name ++ " for "
              ++ toString (wActor.fighter.power - c5wtarget.fighter.defense) ++ " hit points.")
            (if 1 == c5wstate.player_id then ColorName.player_atk else ColorName.enemy_atk)
            true
        ∧ (s2.game_map.entity_by_id c5wtarget.eid).fighter.hp
            = max 0 (min (c5wtarget.fighter.hp - (wActor.fighter.power - c5wtarget.fighter.defense))
                c5wtarget.fighter.max_hp) :=
  ⟨by decide,
   ((melee_perform_resolution c5wstate 1 1 0 wActor (by decide) (by decide)).2
      c5wtarget (by decide)).1 (by decide)⟩

/-- C5 counterexample: power 5 against defense 2 and 2 remaining hp leaves
the defender at 0 hp, not at 2 − 3 = −1, so "exactly that amount is
subtracted" fails (the Fighter owner clamps at 0). -/
theorem melee_overkill_clamped_at_zero :
    (ok_state (melee_perform c5state 1 1 0)).map
        (fun s2 => (s2.game_map.entity_by_id 2).fighter.hp) = some 0
    ∧ ¬ (ok_state (melee_perform c5state 1 1 0)).map
        (fun s2 => (s2.game_map.entity_by_id 2).fighter.hp) = some (2 - 3) := by
  decide

/-- C10: BumpAction.perform dispatches to MeleeAction exactly when the
alive-actor lookup finds a target (which is then an alive actor), and
otherwise to MovementAction, which raises the "That way is blocked."
Impossible whenever a blocking entity (such as a dead actor that still
blocks movement) occupies the destination. -/
theorem bump_dispatch_on_alive_actor (s : EState) (aid : Nat) (dx dy : Int)
    (e0 : Entity)
    (hfind : s.game_map.entities.find? (fun e => e.eid == aid) = some e0) :
    (∀ t, s.game_map.get_actor_at_location (e0.x + dx) (e0.y + dy) = some t →
      bump_perform s aid dx dy = melee_perform s aid dx dy
      ∧ t.is_actor = true ∧ t.is_alive = true)
    ∧ (s.game_map.get_actor_at_location (e0.x + dx) (e0.y + dy) = none →
      bump_perform s aid dx dy = movement_perform s aid dx dy
      ∧ ((s.game_map.get_blocking_entity_at_location (e0.x + dx) (e0.y + dy)).isSome = true →
        bump_perform s aid dx dy = .error "That way is blocked.")) := by
  have he := entity_by_id_of_find s.game_map aid e0 hfind
  constructor
  · intro t ht
    have hp := get_actor_props s.game_map _ _ t ht
    refine ⟨?_, hp.2.1, hp.2.2.1⟩
    simp [bump_perform, he, ht]
  · intro hnone
    have hmv : bump_perform s aid dx dy = movement_perform s aid dx dy := by
      simp [bump_perform, he, hnone]
    refine ⟨hmv, ?_⟩
    intro hblock
    rw [hmv]
    simp only [movement_perform, movement_perform_instr, he]
    by_cases h1 : s.game_map.in_bounds (e0.x + dx) (e0.y + dy) = true
    · by_cases h2 : s.game_map.tile_walkable (e0.x + dx) (e0.y + dy) = true
      · simp [h1, h2, hblock]
      · simp [h1, eq_false_of_ne_true h2]
    · simp [eq_false_of_ne_true h1]

/-- Witness for the bump theorem: in c10state the cell (1, 0) holds a dead
but still blocking actor, so the bump goes through MovementAction and is
blocked. -/
theorem bump_dispatch_on_alive_actor_witness :
    c10state.game_map.get_actor_at_location (wActor.x + 1) (wActor.y + 0) = none
    ∧ (c10state.game_map.get_blocking_entity_at_location (wActor.x + 1) (wActor.y + 0)).isSome = true
    ∧ bump_perform c10state 1 1 0 = movement_perform c10state 1 1 0
    ∧ bump_perform c10state 1 1 0 = .error "That way is blocked." :=
  ⟨by decide, by decide,
   ((bump_dispatch_on_alive_actor c10state 1 1 0 wActor (by decide)).2 (by decide)).1,
   ((bump_dispatch_on_alive_actor c10state 1 1 0 wActor (by decide)).2 (by decide)).2
     (by decide)⟩

/-- C1: PickupAction.perform does not restrict the scan to the actor's
tile: in c1state the actor stands at (0, 0) while the only item on the
map lies at (3, 3), yet perform succeeds, removes that item from the
map's entity set, appends it to the inventory and logs the pickup
message, where the claim requires Impossible("There is nothing here to
pick up."). -/
theorem pickup_takes_item_from_any_tile :
    ((c1state.game_map.entity_by_id 1).x, (c1state.game_map.entity_by_id 1).y) = (0, 0)
    ∧ c1state.game_map.items.map (fun i => (i.x, i.y)) = [(3, 3)]
    ∧ (ok_state (pickup_perform c1state 1)).map
        (fun s2 => ((s2.game_map.entity_by_id 1).inv_items, s2.game_map.items.length,
                    s2.log.map Message.plain_text))
      = some ([⟨2, "Health Potion"⟩], 0, ["You picked up the Health Potion!"])
    ∧ ¬ pickup_perform c1state 1 = .error "There is nothing here to pick up." := by
  decide

/-- C3: when the player's action raises Impossible, handle_action appends
the failure reason with the impossible color, invokes the enemy phase
zero times and the visibility recompute zero times, does not advance the
turn, and leaves every component of the state other than the log exactly
unchanged. -/
theorem handle_action_impossible_skips_turn
    (enemy_phase update_fov : EState → EState) (s : EState) (aid : Nat)
    (a : GAction) (msg : String)
    (h : perform_action s aid a = .error msg) :
    handle_action enemy_phase update_fov s aid (some a) =
      ⟨s.add_message msg ColorName.impossible, 0, 0, false⟩
    ∧ (handle_action enemy_phase update_fov s aid (some a)).state.game_map = s.game_map
    ∧ (handle_action enemy_phase update_fov s aid (some a)).state.player_id = s.player_id
    ∧ (handle_action enemy_phase update_fov s aid (some a)).state.log
        = MessageLog.add_message s.log msg ColorName.impossible true := by
  have h1 : handle_action enemy_phase update_fov s aid (some a) =
      ⟨s.add_message msg ColorName.impossible, 0, 0, false⟩ := by
    simp [handle_action, h]
  exact ⟨h1, by rw [h1]; rfl, by rw [h1]; rfl, by rw [h1]; rfl⟩

/-- Witness for the orchestrator theorem: the blocked move in c4state is
logged and neither collaborator is invoked. -/
theorem handle_action_impossible_skips_turn_witness :
    perform_action c4state 1 (GAction.movement 1 0) = .error "That way is blocked."
    ∧ handle_action id id c4state 1 (some (GAction.movement 1 0)) =
        ⟨c4state.add_message "That way is blocked." ColorName.impossible, 0, 0, false⟩ :=
  ⟨by decide,
   (handle_action_impossible_skips_turn id id c4state 1 (GAction.movement 1 0)
      "That way is blocked." (by decide)).1⟩

/-- C7: for a history-viewer key event with log_length > 0 and the cursor in
range, Up/Down move the cursor by 1 and PageUp/PageDown by 10, clamped to
[0, log_length − 1], except that an upward key at cursor 0 wraps to
log_length − 1 and a downward key at the last index wraps to 0; Home and
End jump to the first and last index; any other key returns control to
MainGame. -/
theorem history_viewer_cursor_rules (log_length cursor : Int)
    (hlen : 0 < log_length) (h0 : 0 ≤ cursor) (h1 : cursor ≤ log_length - 1) :
    (cursor = 0 →
      history_ev_keydown log_length cursor .up = ⟨log_length - 1, false⟩
      ∧ history_ev_keydown log_length cursor .pageup = ⟨log_length - 1, false⟩)
    ∧ (cursor = log_length - 1 →
      history_ev_keydown log_length cursor .down = ⟨0, false⟩
      ∧ history_ev_keydown log_length cursor .pagedown = ⟨0, false⟩)
    ∧ (cursor ≠ 0 →
      history_ev_keydown log_length cursor .up = ⟨cursor - 1, false⟩
      ∧ history_ev_keydown log_length cursor .pageup = ⟨max 0 (cursor - 10), false⟩)
    ∧ (cursor ≠ log_length - 1 →
      history_ev_keydown log_length cursor .down = ⟨cursor + 1, false⟩
      ∧ history_ev_keydown log_length cursor .pagedown
          = ⟨min (cursor + 10) (log_length - 1), false⟩)
    ∧ history_ev_keydown log_length cursor .home = ⟨0, false⟩
    ∧ history_ev_keydown log_length cursor .kEnd = ⟨log_length - 1, false⟩
    ∧ history_ev_keydown log_length cursor .other = ⟨cursor, true⟩ := by
  refine ⟨?_, ?_, ?_, ?_, rfl, rfl, rfl⟩
  · intro hc
    subst hc
    constructor <;> simp [history_ev_keydown, cursor_y_adjust]
  · intro hc
    subst hc
    constructor <;> simp [history_ev_keydown, cursor_y_adjust]
  · intro hc
    constructor <;>
      · simp [history_ev_keydown, cursor_y_adjust, hc, ViewerResult.mk.injEq]
        omega
  · intro hc
    constructor <;>
      · simp [history_ev_keydown, cursor_y_adjust, hc, ViewerResult.mk.injEq]
        omega

/-- Witness for the history-viewer theorem: Up at cursor 0 with 10 messages
wraps to cursor 9. -/
theorem history_viewer_cursor_rules_witness :
    (0 : Int) < 10 ∧ (0 : Int) ≤ 0 ∧ (0 : Int) ≤ 10 - 1
    ∧ history_ev_keydown 10 0 .up = ⟨9, false⟩ :=
  ⟨by decide, by decide, by decide,
   ((history_viewer_cursor_rules 10 0 (by decide) (by decide) (by decide)).1 rfl).1⟩

/-- C9 (amended): keycodes 97..123 — the letters a…z plus the keycode 123
admitted by the inclusive bound `0 <= index <= 26` — map to slot indices
0..26; such a key whose slot holds an item yields that selection, and
otherwise logs "Invalid entry." and keeps the handler active; modifier
keys are ignored (the handler stays active silently); every other key,
and every mouse click, exits back to MainGame. -/
theorem inventory_keydown_rules (num_items : Nat) (sym : Int) :
    (97 ≤ sym → sym ≤ 123 →
      ((sym - 97).toNat < num_items →
        inventory_ev_keydown num_items sym = .selected (sym - 97).toNat)
      ∧ (num_items ≤ (sym - 97).toNat →
        inventory_ev_keydown num_items sym = .invalid_entry))
    ∧ (¬ (97 ≤ sym ∧ sym ≤ 123) → MODIFIER_KEYS.contains sym = false →
        inventory_ev_keydown num_items sym = .to_main)
    ∧ (MODIFIER_KEYS.contains sym = true →
        inventory_ev_keydown num_items sym = .stay)
    ∧ ask_user_ev_mousebuttondown = .to_main := by
  refine ⟨?_, ?_, ?_, rfl⟩
  · intro hlo hhi
    have hstep : inventory_ev_keydown num_items sym =
        if (sym - 97).toNat < num_items then .selected (sym - 97).toNat
        else .invalid_entry := by
      have hcond : (decide ((0 : Int) ≤ sym - 97) && decide ((sym - 97 : Int) ≤ 26)) = true := by
        simp only [Bool.and_eq_true, decide_eq_true_eq]
        exact ⟨by omega, by omega⟩
      simp only [inventory_ev_keydown, K_a]
      rw [hcond]
      simp
    constructor
    · intro hn
      rw [hstep, if_pos hn]
    · intro hn
      rw [hstep, if_neg (Nat.not_lt.mpr hn)]
  · intro hrange hmod
    have hcond : (decide ((0 : Int) ≤ sym - 97) && decide ((sym - 97 : Int) ≤ 26)) = false := by
      simp only [Bool.and_eq_false_iff, decide_eq_false_iff_not]
      omega
    have hstep : inventory_ev_keydown num_items sym = ask_user_ev_keydown sym := by
      simp only [inventory_ev_keydown, K_a]
      rw [hcond]
      simp
    rw [hstep]
    simp only [ask_user_ev_keydown]
    rw [hmod]
    simp
  · intro hmod
    have hmem : sym ∈ MODIFIER_KEYS := by simpa using hmod
    have hrange : ¬ (0 ≤ sym - 97 ∧ sym - 97 ≤ 26) := by
      simp only [ MODIFIER_KEYS, List.mem_cons, List.not_mem_nil, or_false] at hmem
      rcases hmem with rfl | rfl | rfl | rfl | rfl | rfl <;> norm_num
    have hcond : (decide ((0 : Int) ≤ sym - 97) && decide ((sym - 97 : Int) ≤ 26)) = false := by
      simp only [Bool.and_eq_false_iff, decide_eq_false_iff_not]
      omega
    have hstep : inventory_ev_keydown num_items sym = ask_user_ev_keydown sym := by
      simp only [inventory_ev_keydown, K_a]
      rw [hcond]
      simp
    rw [hstep]
    simp only [ask_user_ev_keydown]
    rw [hmod]
    simp

/-- Witness for the inventory theorem: the letter b (code 98) with three
items selects slot 1. -/
theorem inventory_keydown_rules_witness :
    (97 : Int) ≤ 98 ∧ (98 : Int) ≤ 123 ∧ ((98 : Int) - 97).toNat < 3
    ∧ inventory_ev_keydown 3 98 = .selected 1 :=
  ⟨by decide, by decide, by decide,
   ((inventory_keydown_rules 3 98).1 (by decide) (by decide)).1 (by decide)⟩

/-- C9 counterexample: keycode 123 is not a letter key a…z, yet with an
empty inventory the handler logs "Invalid entry." and stays active
instead of exiting to MainGame. -/
theorem inventory_key_123_selects_slot_26 :
    inventory_ev_keydown 0 123 = .invalid_entry
    ∧ ¬ inventory_ev_keydown 0 123 = .to_main := by
  decide

theorem set_ai_find (s : EState) (aid : Nat) (e0 : Entity) (a : AIRec)
    (hfind : s.game_map.entities.find? (fun e => e.eid == aid) = some e0) :
    (s.set_ai aid a).game_map.entities.find? (fun e => e.eid == aid)
      = some { e0 with ai := a } := by
  have he := entity_by_id_of_find s.game_map aid e0 hfind
  simp only [EState.set_ai, he, GameMap.set_entity]
  exact find?_replace_self s.game_map.entities aid e0 { e0 with ai := a } hfind
    (eid_of_find s.game_map.entities aid e0 hfind)

theorem set_ai_entity (s : EState) (aid : Nat) (e0 : Entity) (a : AIRec)
    (hfind : s.game_map.entities.find? (fun e => e.eid == aid) = some e0) :
    (s.set_ai aid a).game_map.entity_by_id aid = { e0 with ai := a } :=
  entity_by_id_of_find _ aid _ (set_ai_find s aid e0 a hfind)

theorem set_ai_uniq (s : EState) (aid : Nat) (a : AIRec)
    (huniq : (s.game_map.entities.map Entity.eid).Nodup) :
    ((s.set_ai aid a).game_map.entities.map Entity.eid).Nodup := by
  simp only [EState.set_ai]
  rw [map_eid_set]
  exact huniq

theorem hostile_follow_spec (s : EState) (aid : Nat) (e0 : Entity)
    (hfind : s.game_map.entities.find? (fun e => e.eid == aid) = some e0)
    (huniq : (s.game_map.entities.map Entity.eid).Nodup) :
    hostile_follow s aid [] = ⟨s, .wait_act, none⟩
    ∧ ∀ w rest, (hostile_follow s aid (w :: rest)).act
        = .move_act (w.1 - e0.x) (w.2 - e0.y)
      ∧ ((hostile_follow s aid (w :: rest)).state.game_map.entity_by_id aid).ai
          = AIRec.hostile rest := by
  refine ⟨rfl, ?_⟩
  intro w rest
  have hfind1 := set_ai_find s aid e0 (AIRec.hostile rest) hfind
  have he1 := set_ai_entity s aid e0 (AIRec.hostile rest) hfind
  have huniq1 := set_ai_uniq s aid (AIRec.hostile rest) huniq
  cases hm : movement_perform (s.set_ai aid (AIRec.hostile rest)) aid
      (w.1 - ((s.set_ai aid (AIRec.hostile rest)).game_map.entity_by_id aid).x)
      (w.2 - ((s.set_ai aid (AIRec.hostile rest)).game_map.entity_by_id aid).y) with
  | ok s2 =>
    have heq : hostile_follow s aid (w :: rest) =
        ⟨s2, .move_act
          (w.1 - ((s.set_ai aid (AIRec.hostile rest)).game_map.entity_by_id aid).x)
          (w.2 - ((s.set_ai aid (AIRec.hostile rest)).game_map.entity_by_id aid).y),
          none⟩ := by
      simp only [hostile_follow]
      rw [hm]
    rw [heq]
    constructor
    · rw [he1]
    · have := movement_ok_actor (s.set_ai aid (AIRec.hostile rest)) aid _ _
        { e0 with ai := AIRec.hostile rest } hfind1 s2 hm
      rw [this.1]
  | error msg =>
    have heq : hostile_follow s aid (w :: rest) =
        ⟨s.set_ai aid (AIRec.hostile rest), .move_act
          (w.1 - ((s.set_ai aid (AIRec.hostile rest)).game_map.entity_by_id aid).x)
          (w.2 - ((s.set_ai aid (AIRec.hostile rest)).game_map.entity_by_id aid).y),
          some msg⟩ := by
      simp only [hostile_follow]
      rw [hm]
    rw [heq]
    constructor
    · rw [he1]
    · rw [he1]

/-- C6: a confused decision with the counter at or below 0 restores the
actor's AI to the wrapped previous value, emits the "no longer confused"
message and issues no action; with a positive counter it decrements by
exactly 1 and issues a Bump in the direction drawn from the 8-element
compass list (uniform choice over 8 distinct directions); and starting
from turns_remaining = 2 in the boxed-in scenario, three consecutive
decisions — whatever the random draws — log exactly one reversion
message, none before the third decision, after which the actor's AI
reference equals the originally wrapped value. -/
theorem confused_enemy_decision (s : EState) (aid : Nat) (prev : AIRec)
    (turns : Int) (i : Fin 8) (e0 : Entity)
    (hfind : s.game_map.entities.find? (fun e => e.eid == aid) = some e0)
    (huniq : (s.game_map.entities.map Entity.eid).Nodup) :
    (turns ≤ 0 →
      confused_perform s aid prev turns i =
        ⟨(s.add_message ("The " ++ e0.name ++ " is no longer confused.")
            ColorName.white).set_ai aid prev, .none_act, none⟩
      ∧ ((confused_perform s aid prev turns i).state.game_map.entity_by_id aid).ai
          = prev)
    ∧ (0 < turns →
      (confused_perform s aid prev turns i).act
        = .bump_act (compass_dir i).1 (compass_dir i).2
      ∧ ((confused_perform s aid prev turns i).state.game_map.entity_by_id aid).ai
          = .confused prev (turns - 1))
    ∧ compassDirs.length = 8 ∧ compassDirs.Nodup
    ∧ (∀ j1 j2 j3 : Fin 8,
        count_text ((ai_decide ((ai_decide c6state 2 j1).state) 2 j2).state.log)
          (reversion_text "Orc") = 0
        ∧ count_text (decide3 c6state 2 j1 j2 j3).log (reversion_text "Orc") = 1
        ∧ ((decide3 c6state 2 j1 j2 j3).game_map.entity_by_id 2).ai
            = AIRec.hostile []) := by
  have he := entity_by_id_of_find s.game_map aid e0 hfind
  refine ⟨?_, ?_, rfl, by decide, by decide⟩
  · intro ht
    have heq : confused_perform s aid prev turns i =
        ⟨(s.add_message ("The " ++ e0.name ++ " is no longer confused.")
            ColorName.white).set_ai aid prev, .none_act, none⟩ := by
      simp only [confused_perform, he]
      rw [if_pos ht]
    refine ⟨heq, ?_⟩
    rw [heq]
    have hfind1 : (s.add_message ("The " ++ e0.name ++ " is no longer confused.")
        ColorName.white).game_map.entities.find? (fun e => e.eid == aid) = some e0 := hfind
    rw [set_ai_entity _ aid e0 prev hfind1]
  · intro ht
    have hnle : ¬ turns ≤ 0 := by omega
    have hfind1 := set_ai_find s aid e0 (AIRec.confused prev (turns - 1)) hfind
    have huniq1 := set_ai_uniq s aid (AIRec.confused prev (turns - 1)) huniq
    cases hbump : bump_perform (s.set_ai aid (AIRec.confused prev (turns - 1))) aid
        (compass_dir i).1 (compass_dir i).2 with
    | ok s2 =>
      have heq : confused_perform s aid prev turns i =
          ⟨s2, .bump_act (compass_dir i).1 (compass_dir i).2, none⟩ := by
        simp only [confused_perform, he]
        rw [if_neg hnle, hbump]
      rw [heq]
      refine ⟨rfl, ?_⟩
      exact bump_ok_actor_ai _ aid _ _ _ hfind1 huniq1 s2 hbump
    | error msg =>
      have heq : confused_perform s aid prev turns i =
          ⟨s.set_ai aid (AIRec.confused prev (turns - 1)),
           .bump_act (compass_dir i).1 (compass_dir i).2, some msg⟩ := by
        simp only [confused_perform, he]
        rw [if_neg hnle, hbump]
      rw [heq]
      refine ⟨rfl, ?_⟩
      rw [set_ai_entity s aid e0 (AIRec.confused prev (turns - 1)) hfind]

/-- Witness for the confusion theorem: the boxed-in orc at turns_remaining
= 2 bumps northwest on draw 0 and ends with the counter at 1. -/
theorem confused_enemy_decision_witness :
    c6state.game_map.entities.find? (fun e => e.eid == 2) = some c6orc
    ∧ (0 : Int) < 2
    ∧ (confused_perform c6state 2 (AIRec.hostile []) 2 0).act = .bump_act (-1) (-1)
    ∧ ((confused_perform c6state 2 (AIRec.hostile []) 2 0).state.game_map.entity_by_id 2).ai
        = .confused (AIRec.hostile []) 1 :=
  ⟨by decide, by decide,
   ((confused_enemy_decision c6state 2 (AIRec.hostile []) 2 0 c6orc
      (by decide) (by decide)).2.1 (by decide)).1,
   ((confused_enemy_decision c6state 2 (AIRec.hostile []) 2 0 c6orc
      (by decide) (by decide)).2.1 (by decide)).2⟩

/-- C8: a hostile decision re-senses only when the actor's own tile is in
the visible set: when not sensing it follows the cached (possibly stale)
path — popping its head and moving toward it — or waits if that cache is
empty; when sensing at Chebyshev distance ≤ 1 it melees the player
immediately; when sensing farther away it recomputes the path, caches
it, and immediately follows it the same way (waiting only if the fresh
path is empty). -/
theorem hostile_enemy_decision (s : EState) (aid : Nat)
    (path0 : List (Int × Int)) (e0 : Entity)
    (hfind : s.game_map.entities.find? (fun e => e.eid == aid) = some e0)
    (huniq : (s.game_map.entities.map Entity.eid).Nodup) :
    (s.game_map.visible.contains (e0.x, e0.y) = false → path0 = [] →
      hostile_perform s aid path0 = ⟨s, .wait_act, none⟩)
    ∧ (∀ w rest, s.game_map.visible.contains (e0.x, e0.y) = false →
        path0 = w :: rest →
      (hostile_perform s aid path0).act = .move_act (w.1 - e0.x) (w.2 - e0.y)
      ∧ ((hostile_perform s aid path0).state.game_map.entity_by_id aid).ai
          = AIRec.hostile rest)
    ∧ (s.game_map.visible.contains (e0.x, e0.y) = true →
       max ((s.game_map.entity_by_id s.player_id).x - e0.x).natAbs
           ((s.game_map.entity_by_id s.player_id).y - e0.y).natAbs ≤ 1 →
      (hostile_perform s aid path0).act
        = .melee_act ((s.game_map.entity_by_id s.player_id).x - e0.x)
            ((s.game_map.entity_by_id s.player_id).y - e0.y))
    ∧ (s.game_map.visible.contains (e0.x, e0.y) = true →
       1 < max ((s.game_map.entity_by_id s.player_id).x - e0.x).natAbs
           ((s.game_map.entity_by_id s.player_id).y - e0.y).natAbs →
      (get_path_to s.game_map aid (s.game_map.entity_by_id s.player_id).x
          (s.game_map.entity_by_id s.player_id).y = [] →
        hostile_perform s aid path0
          = ⟨s.set_ai aid (AIRec.hostile []), .wait_act, none⟩)
      ∧ (∀ w rest, get_path_to s.game_map aid
            (s.game_map.entity_by_id s.player_id).x
            (s.game_map.entity_by_id s.player_id).y = w :: rest →
        (hostile_perform s aid path0).act = .move_act (w.1 - e0.x) (w.2 - e0.y)
        ∧ ((hostile_perform s aid path0).state.game_map.entity_by_id aid).ai
            = AIRec.hostile rest)) := by
  have he := entity_by_id_of_find s.game_map aid e0 hfind
  refine ⟨?_, ?_, ?_, ?_⟩
  · intro hvis hpath
    simp only [hostile_perform, he, hvis, hpath]
    rfl
  · intro w rest hvis hpath
    have hfol := (hostile_follow_spec s aid e0 hfind huniq).2 w rest
    have heq : hostile_perform s aid path0 = hostile_follow s aid (w :: rest) := by
      simp only [hostile_perform, he, hvis, hpath]
      rfl
    rw [heq]
    exact hfol
  · intro hvis hdist
    have heq : hostile_perform s aid path0 =
        (match melee_perform s aid ((s.game_map.entity_by_id s.player_id).x - e0.x)
            ((s.game_map.entity_by_id s.player_id).y - e0.y) with
         | .ok s2 => ⟨s2, .melee_act ((s.game_map.entity_by_id s.player_id).x - e0.x)
              ((s.game_map.entity_by_id s.player_id).y - e0.y), none⟩
         | .error msg => ⟨s, .melee_act ((s.game_map.entity_by_id s.player_id).x - e0.x)
              ((s.game_map.entity_by_id s.player_id).y - e0.y), some msg⟩) := by
      simp only [hostile_perform, he, hvis]
      rw [if_pos hdist]
      simp
    rw [heq]
    cases melee_perform s aid ((s.game_map.entity_by_id s.player_id).x - e0.x)
        ((s.game_map.entity_by_id s.player_id).y - e0.y) with
    | ok s2 => rfl
    | error msg => rfl
  · intro hvis hdist
    have hnle : ¬ (max ((s.game_map.entity_by_id s.player_id).x - e0.x).natAbs
        ((s.game_map.entity_by_id s.player_id).y - e0.y).natAbs ≤ 1) := by omega
    have heq : hostile_perform s aid path0 =
        hostile_follow (s.set_ai aid (AIRec.hostile
            (get_path_to s.game_map aid (s.game_map.entity_by_id s.player_id).x
              (s.game_map.entity_by_id s.player_id).y))) aid
          (get_path_to s.game_map aid (s.game_map.entity_by_id s.player_id).x
            (s.game_map.entity_by_id s.player_id).y) := by
      simp only [hostile_perform, he, hvis]
      rw [if_neg hnle]
      simp
    constructor
    · intro hempty
      rw [heq, hempty]
      rfl
    · intro w rest hpath
      rw [heq, hpath]
      have hfind2 : (s.set_ai aid (AIRec.hostile (get_path_to s.game_map aid
          (s.game_map.entity_by_id s.player_id).x
          (s.game_map.entity_by_id s.player_id).y))).game_map.entities.find?
            (fun e => e.eid == aid)
          = some { e0 with ai := AIRec.hostile (get_path_to s.game_map aid
              (s.game_map.entity_by_id s.player_id).x
              (s.game_map.entity_by_id s.player_id).y) } :=
        set_ai_find s aid e0 _ hfind
      rw [hpath] at hfind2
      have huniq2 := set_ai_uniq s aid (AIRec.hostile (w :: rest)) huniq
      have hfol := (hostile_follow_spec
          (s.set_ai aid (AIRec.hostile (w :: rest))) aid
          { e0 with ai := AIRec.hostile (w :: rest) } hfind2 ?hu).2 w rest
      case hu =>
        have := set_ai_uniq s aid (AIRec.hostile (get_path_to s.game_map aid
            (s.game_map.entity_by_id s.player_id).x
            (s.game_map.entity_by_id s.player_id).y)) huniq
        rwa [hpath] at this
      exact hfol

/-- Witness for the hostile theorem: the unseen orc of c8state follows its
stale cached path, moving toward (1, 0) and leaving an empty cache. -/
theorem hostile_enemy_decision_witness :
    c8state.game_map.visible.contains (c8orc.x, c8orc.y) = false
    ∧ (hostile_perform c8state 2 [(1, 0)]).act = .move_act 1 0
    ∧ ((hostile_perform c8state 2 [(1, 0)]).state.game_map.entity_by_id 2).ai
        = AIRec.hostile [] :=
  ⟨by decide,
   ((hostile_enemy_decision c8state 2 [(1, 0)] c8orc (by decide) (by decide)).2.1
      (1, 0) [] (by decide) rfl).1,
   ((hostile_enemy_decision c8state 2 [(1, 0)] c8orc (by decide) (by decide)).2.1
      (1, 0) [] (by decide) rfl).2⟩

theorem int8_wrap_idem (v : Int) : int8_wrap (int8_wrap v) = int8_wrap v := by
  unfold int8_wrap
  omega

theorem int8_wrap_add_left (x y : Int) :
    int8_wrap (int8_wrap x + y) = int8_wrap (x + y) := by
  unfold int8_wrap
  omega

theorem int8_wrap_odd (v : Int) (h : v % 2 = 1) : int8_wrap v % 2 = 1 := by
  unfold int8_wrap
  omega

theorem int8_wrap_ne_zero_of_odd (v : Int) (h : v % 2 = 1) :
    ¬ int8_wrap v = 0 := by
  unfold int8_wrap
  omega

theorem foldl_add_entity_cost (es : List Entity) (g : Int × Int → Int)
    (hg : ∀ c2, g c2 = 0 ∨ g c2 % 2 = 1)
    (hrange : ∀ c2, int8_wrap (g c2) = g c2) (c : Int × Int) :
    es.foldl add_entity_cost g c =
      if g c = 0 then 0
      else int8_wrap (g c + 10 * ((es.filter
          (fun e => e.blocks_movement && e.x == c.1 && e.y == c.2)).length : Int)) := by
  induction es generalizing g with
  | nil =>
    simp only [List.foldl_nil, List.filter_nil, List.length_nil, Nat.cast_zero,
      mul_zero, add_zero]
    by_cases hgc : g c = 0
    · rw [if_pos hgc]
      exact hgc
    · rw [if_neg hgc]
      exact (hrange c).symm
  | cons e tl ih =>
    simp only [List.foldl_cons]
    by_cases hbe : (e.blocks_movement && !(g (e.x, e.y) == 0)) = true
    · have hbe3 : e.blocks_movement = true ∧ ¬ g (e.x, e.y) = 0 := by
        simpa using hbe
      have hb : e.blocks_movement = true := hbe3.1
      have hgz : ¬ g (e.x, e.y) = 0 := hbe3.2
      have hoddp : g (e.x, e.y) % 2 = 1 := (hg (e.x, e.y)).resolve_left hgz
      have hgupdate : add_entity_cost g e
          = fun c2 => if c2 = (e.x, e.y) then int8_wrap (g c2 + 10) else g c2 := by
        simp only [add_entity_cost, hbe, if_true]
      rw [hgupdate]
      have hg1 : ∀ c2, (fun c2 => if c2 = (e.x, e.y) then int8_wrap (g c2 + 10) else g c2) c2 = 0
          ∨ (fun c2 => if c2 = (e.x, e.y) then int8_wrap (g c2 + 10) else g c2) c2 % 2 = 1 := by
        intro c2
        by_cases hc2 : c2 = (e.x, e.y)
        · right
          simp only [hc2, if_pos rfl]
          exact int8_wrap_odd _ (by omega)
        · simp only [if_neg hc2]
          exact hg c2
      have hr1 : ∀ c2, int8_wrap ((fun c2 => if c2 = (e.x, e.y) then int8_wrap (g c2 + 10) else g c2) c2)
          = (fun c2 => if c2 = (e.x, e.y) then int8_wrap (g c2 + 10) else g c2) c2 := by
        intro c2
        by_cases hc2 : c2 = (e.x, e.y)
        · simp only [hc2, if_pos rfl]
          exact int8_wrap_idem _
        · simp only [if_neg hc2]
          exact hrange c2
      rw [ih _ hg1 hr1]
      by_cases hc : c = (e.x, e.y)
      · have hgc : ¬ g c = 0 := by rw [hc]; exact hgz
        have hoddc : g c % 2 = 1 := by rw [hc]; exact hoddp
        have hwne : ¬ int8_wrap (g c + 10) = 0 :=
          int8_wrap_ne_zero_of_odd _ (by omega)
        have hpred : (e.blocks_movement && e.x == c.1 && e.y == c.2) = true := by
          rw [hc]
          simp [hb]
        simp only [if_pos hc]
        rw [if_neg hwne, if_neg hgc]
        simp only [List.filter_cons, hpred, if_true, List.length_cons]
        rw [int8_wrap_add_left]
        congr 1
        push_cast
        ring
      · simp only [if_neg hc]
        have hpred : ¬ ((e.blocks_movement && e.x == c.1 && e.y == c.2) = true) := by
          intro hcon
          simp only [Bool.and_eq_true, beq_iff_eq] at hcon
          apply hc
          obtain ⟨⟨_, h1⟩, h2⟩ := hcon
          cases c
          simp_all
        have hpredf := eq_false_of_ne_true hpred
        simp [List.filter_cons, hpredf]
    · have hbe2 : (e.blocks_movement && !(g (e.x, e.y) == 0)) = false :=
        eq_false_of_ne_true hbe
      have hgeq : add_entity_cost g e = g := by
        simp [add_entity_cost, hbe2]
      rw [hgeq, ih g hg hrange]
      by_cases hgc : g c = 0
      · rw [if_pos hgc, if_pos hgc]
      · rw [if_neg hgc, if_neg hgc]
        have hpred : ¬ ((e.blocks_movement && e.x == c.1 && e.y == c.2) = true) := by
          intro hcon
          simp only [Bool.and_eq_true, beq_iff_eq] at hcon
          apply hbe
          obtain ⟨⟨hblk, h1⟩, h2⟩ := hcon
          have hcpos : c = (e.x, e.y) := by
            cases c
            simp_all
          rw [Bool.and_eq_true]
          refine ⟨hblk, ?_⟩
          simp only [Bool.not_eq_true', beq_eq_false_iff_ne, ne_eq]
          rw [← hcpos]
          exact hgc
        have hpredf := eq_false_of_ne_true hpred
        simp [List.filter_cons, hpredf]

theorem base_cost_odd (m : GameMap) :
    ∀ c, base_cost m c = 0 ∨ base_cost m c % 2 = 1 := by
  intro c
  simp only [base_cost]
  split
  · right
    rfl
  · left
    rfl

theorem base_cost_range (m : GameMap) :
    ∀ c, int8_wrap (base_cost m c) = base_cost m c := by
  intro c
  simp only [base_cost]
  split
  · rfl
  · rfl

theorem cost_grid_eq (m : GameMap) (c : Int × Int) :
    cost_grid m c =
      if m.tile_walkable c.1 c.2 then int8_wrap (1 + 10 * (blockers_at m c : Int))
      else 0 := by
  have h := foldl_add_entity_cost m.entities (base_cost m) (base_cost_odd m)
    (base_cost_range m) c
  rw [cost_grid] at *
  rw [h]
  simp only [blockers_at, base_cost]
  by_cases hw : m.tile_walkable c.1 c.2 = true
  · rw [if_pos hw, if_pos hw, if_neg (by omega : ¬ (1 : Int) = 0)]
  · rw [if_neg hw, if_neg hw, if_pos rfl]

theorem pick_min_mem : ∀ (l : List PNode) (n : PNode) (rest : List PNode),
    pick_min l = some (n, rest) → n ∈ l ∧ ∀ x ∈ rest, x ∈ l := by
  intro l
  induction l with
  | nil => intro n rest h; cases h
  | cons a tl ih =>
    intro n rest h
    simp only [pick_min] at h
    cases hrec : pick_min tl with
    | none =>
      rw [hrec] at h
      simp only [Option.some.injEq, Prod.mk.injEq] at h
      obtain ⟨rfl, rfl⟩ := h
      exact ⟨List.mem_cons_self _ _, by simp⟩
    | some pr =>
      obtain ⟨b, others⟩ := pr
      rw [hrec] at h
      dsimp only at h
      by_cases hcost : a.cost ≤ b.cost
      · rw [if_pos hcost] at h
        simp only [Option.some.injEq, Prod.mk.injEq] at h
        obtain ⟨rfl, rfl⟩ := h
        exact ⟨List.mem_cons_self _ _, fun x hx => List.mem_cons_of_mem _ hx⟩
      · rw [if_neg hcost] at h
        simp only [Option.some.injEq, Prod.mk.injEq] at h
        obtain ⟨rfl, rfl⟩ := h
        have hb := ih _ others hrec
        refine ⟨List.mem_cons_of_mem _ hb.1, ?_⟩
        intro x hx
        rcases List.mem_cons.mp hx with rfl | hx2
        · exact List.mem_cons_self _ _
        · exact List.mem_cons_of_mem _ (hb.2 x hx2)

theorem chain_ok_append (g : Int × Int → Int) :
    ∀ (xs : List (Int × Int)) (c q : Int × Int),
    chain_ok_b g xs = true → xs.getLast? = some c →
    max (q.1 - c.1).natAbs (q.2 - c.2).natAbs = 1 → ¬ g q = 0 →
    chain_ok_b g (xs ++ [q]) = true := by
  intro xs
  induction xs with
  | nil =>
    intro c q _ hl _ _
    cases hl
  | cons a tl ih =>
    intro c q hchain hlast hking hq
    cases tl with
    | nil =>
      have ha : a = c := by simpa using hlast
      subst ha
      simp only [List.cons_append, List.nil_append]
      simp [chain_ok_b, hking, hq]
    | cons b tl2 =>
      have hlast2 : (b :: tl2).getLast? = some c := by
        rw [List.getLast?_cons_cons] at hlast
        exact hlast
      have hchain2 := hchain
      simp only [chain_ok_b, Bool.and_eq_true] at hchain2
      obtain ⟨⟨hk1, hq1⟩, hrest⟩ := hchain2
      have hih := ih c q hrest hlast2 hking hq
      simp only [List.cons_append] at hih ⊢
      simp only [chain_ok_b, Bool.and_eq_true]
      exact ⟨⟨hk1, hq1⟩, hih⟩

theorem chain_reachable (g : Int × Int → Int) :
    ∀ (xs : List (Int × Int)) (a b : Int × Int), chain_ok_b g (a :: xs) = true →
      (a :: xs).getLast? = some b → reachable g a b := by
  intro xs
  induction xs with
  | nil =>
    intro a b _ hl
    have hab : a = b := by simpa using hl
    subst hab
    exact Relation.ReflTransGen.refl
  | cons q tl ih =>
    intro a b hchain hlast
    simp only [chain_ok_b, Bool.and_eq_true] at hchain
    obtain ⟨⟨hk, hq⟩, hrest⟩ := hchain
    have hstep : path_step g a q := by
      constructor
      · simpa using hk
      · simpa using hq
    have hlast2 : (q :: tl).getLast? = some b := by
      rw [List.getLast?_cons_cons] at hlast
      exact hlast
    exact Relation.ReflTransGen.head hstep (ih q b hrest hlast2)

theorem compassDirs_king : ∀ d ∈ compassDirs, max d.1.natAbs d.2.natAbs = 1 := by
  decide

theorem successors_inv (g : Int × Int → Int) (root : Int × Int) (n : PNode)
    (c : Int × Int) (tl : List (Int × Int)) (hpath : n.path = c :: tl)
    (hlast : n.path.getLast? = some root)
    (hchain : chain_ok_b g n.path.reverse = true) :
    ∀ x ∈ successors g n c, x.path ≠ [] ∧ x.path.getLast? = some root
      ∧ chain_ok_b g x.path.reverse = true := by
  intro x hx
  simp only [successors, List.mem_filterMap] at hx
  obtain ⟨d, hd, hcond⟩ := hx
  by_cases hq : g (c.1 + d.1, c.2 + d.2) = 0
  · rw [if_pos (by simpa using hq)] at hcond
    cases hcond
  · rw [if_neg (by simpa using hq)] at hcond
    injection hcond with hcond
    subst hcond
    refine ⟨by simp, ?_, ?_⟩
    · show ((c.1 + d.1, c.2 + d.2) :: n.path).getLast? = some root
      rw [hpath, List.getLast?_cons_cons, ← hpath]
      exact hlast
    · show chain_ok_b g ((c.1 + d.1, c.2 + d.2) :: n.path).reverse = true
      rw [List.reverse_cons]
      apply chain_ok_append g n.path.reverse c
      · exact hchain
      · rw [List.getLast?_reverse, hpath]
        rfl
      · have hk := compassDirs_king d hd
        simpa using hk
      · exact hq

theorem dijkstra_sound (g : Int × Int → Int) (dest root : Int × Int) :
    ∀ (fuel : Nat) (settled : List (Int × Int)) (frontier : List PNode)
      (p : List (Int × Int)),
    (∀ n ∈ frontier, n.path ≠ [] ∧ n.path.getLast? = some root
        ∧ chain_ok_b g n.path.reverse = true) →
    dijkstra g dest fuel settled frontier = some p →
    p.head? = some root ∧ p.getLast? = some dest ∧ chain_ok_b g p = true := by
  intro fuel
  induction fuel with
  | zero =>
    intro settled frontier p hinv h
    cases h
  | succ fuel ih =>
    intro settled frontier p hinv h
    rw [dijkstra] at h
    cases hpick : pick_min frontier with
    | none =>
      rw [hpick] at h
      cases h
    | some pr =>
      obtain ⟨n, rest⟩ := pr
      rw [hpick] at h
      dsimp only at h
      have hmem := pick_min_mem frontier n rest hpick
      have hn := hinv n hmem.1
      have hrestinv : ∀ x ∈ rest, x.path ≠ [] ∧ x.path.getLast? = some root
          ∧ chain_ok_b g x.path.reverse = true := fun x hx => hinv x (hmem.2 x hx)
      cases hpath : n.path with
      | nil => exact absurd hpath hn.1
      | cons c tl =>
        rw [hpath] at h
        dsimp only at h
        by_cases hset : settled.contains c = true
        · rw [if_pos hset] at h
          exact ih settled rest p hrestinv h
        · rw [if_neg hset] at h
          by_cases hdest : c = dest
          · rw [if_pos hdest] at h
            injection h with h
            subst h
            refine ⟨?_, ?_, ?_⟩
            · rw [List.head?_reverse, ← hpath]
              exact hn.2.1
            · rw [List.getLast?_reverse]
              simp [hdest]
            · rw [← hpath]
              exact hn.2.2
          · rw [if_neg hdest] at h
            apply ih (c :: settled) (rest ++ successors g n c) p ?_ h
            intro x hx
            rcases List.mem_append.mp hx with hx1 | hx2
            · exact hrestinv x hx1
            · exact successors_inv g root n c tl hpath hn.2.1 hn.2.2 x hx2

theorem get_path_to_sound (m : GameMap) (aid : Nat) (dest_x dest_y : Int)
    (hne : get_path_to m aid dest_x dest_y ≠ []) :
    chain_ok_b (cost_grid m)
      (((m.entity_by_id aid).x, (m.entity_by_id aid).y)
        :: get_path_to m aid dest_x dest_y) = true
    ∧ (get_path_to m aid dest_x dest_y).getLast? = some (dest_x, dest_y) := by
  cases hdij : dijkstra (cost_grid m) (dest_x, dest_y) (path_fuel m) []
      [⟨0, [((m.entity_by_id aid).x, (m.entity_by_id aid).y)]⟩] with
  | none =>
    exfalso
    apply hne
    simp only [get_path_to]
    rw [hdij]
    rfl
  | some q =>
    have hfull : get_path_to m aid dest_x dest_y = q.drop 1 := by
      simp only [get_path_to]
      rw [hdij]
      rfl
    have hinv0 : ∀ n ∈ [(⟨0, [((m.entity_by_id aid).x, (m.entity_by_id aid).y)]⟩ : PNode)],
        n.path ≠ [] ∧ n.path.getLast? = some ((m.entity_by_id aid).x, (m.entity_by_id aid).y)
          ∧ chain_ok_b (cost_grid m) n.path.reverse = true := by
      intro n hn
      simp only [List.mem_singleton] at hn
      subst hn
      exact ⟨by simp, rfl, rfl⟩
    have hsound := dijkstra_sound (cost_grid m) (dest_x, dest_y)
      ((m.entity_by_id aid).x, (m.entity_by_id aid).y) (path_fuel m) []
      [⟨0, [((m.entity_by_id aid).x, (m.entity_by_id aid).y)]⟩] q hinv0 hdij
    obtain ⟨hhead, hlast, hchain⟩ := hsound
    cases q with
    | nil => cases hhead
    | cons r t =>
      have hr : r = ((m.entity_by_id aid).x, (m.entity_by_id aid).y) := by
        simpa using hhead
      have ht : get_path_to m aid dest_x dest_y = t := by
        rw [hfull]
        rfl
      subst hr
      rw [ht]
      refine ⟨hchain, ?_⟩
      cases t with
      | nil =>
        exfalso
        apply hne
        rw [ht]
      | cons w t2 =>
        rw [List.getLast?_cons_cons] at hlast
        exact hlast

/-- C2 (amended): the cost grid built by get_path_to starts from the static
walkable grid (walkable 1, blocked 0) and receives exactly 10, in the
array's wrapping int8 arithmetic, per blocking entity standing on a
nonzero-cost cell — the acting entity included, which is the correction
to the claim — so a walkable cell carrying k blockers reads the int8
reduction of 1 + 10·k (equal to 1 + 10·k itself for k ≤ 12); any
non-empty returned path excludes the actor's starting cell yet chains
from it to the destination through 8-directional king moves into
nonzero-cost cells (the embedded graph weights entering a cell by factor
2 on cardinal and 3 on diagonal steps, as in the SimpleGraph call); and
an unreachable destination yields the empty path. -/
theorem get_path_to_properties (m : GameMap) (aid : Nat) (dest_x dest_y : Int) :
    (∀ c : Int × Int, cost_grid m c =
        if m.tile_walkable c.1 c.2 then int8_wrap (1 + 10 * (blockers_at m c : Int))
        else 0)
    ∧ (get_path_to m aid dest_x dest_y ≠ [] →
        chain_ok_b (cost_grid m)
          (((m.entity_by_id aid).x, (m.entity_by_id aid).y)
            :: get_path_to m aid dest_x dest_y) = true
        ∧ (get_path_to m aid dest_x dest_y).getLast? = some (dest_x, dest_y))
    ∧ (¬ reachable (cost_grid m) ((m.entity_by_id aid).x, (m.entity_by_id aid).y)
          (dest_x, dest_y) →
        get_path_to m aid dest_x dest_y = []) := by
  refine ⟨cost_grid_eq m, get_path_to_sound m aid dest_x dest_y, ?_⟩
  intro hunreach
  by_contra hne
  have hs := get_path_to_sound m aid dest_x dest_y hne
  apply hunreach
  apply chain_reachable (cost_grid m) (get_path_to m aid dest_x dest_y)
    ((m.entity_by_id aid).x, (m.entity_by_id aid).y) (dest_x, dest_y) hs.1
  cases hp : get_path_to m aid dest_x dest_y with
  | nil => exact absurd hp hne
  | cons w t =>
    rw [List.getLast?_cons_cons]
    rw [← hp]
    exact hs.2

theorem c2w_blocked (x y : Int) (h : c2wmap.tile_walkable x y = true) :
    x = 0 ∧ y = 0 := by
  by_cases h0 : (x < 0 || y < 0) = true
  · rw [GameMap.tile_walkable, if_pos h0] at h
    cases h
  · rw [GameMap.tile_walkable, if_neg (by simpa using h0)] at h
    have hx0 : ¬ x < 0 ∧ ¬ y < 0 := by simpa using h0
    cases hx : x.toNat with
    | zero =>
      rw [hx] at h
      cases hy : y.toNat with
      | zero => omega
      | succ k =>
        rw [hy] at h
        have : c2wmap.walkable = [[true]] := rfl
        rw [this] at h
        simp at h
    | succ k =>
      rw [hx] at h
      have : c2wmap.walkable = [[true]] := rfl
      rw [this] at h
      simp at h

theorem c2w_unreachable : ¬ reachable (cost_grid c2wmap) (0, 0) (2, 0) := by
  intro h
  rcases Relation.ReflTransGen.cases_head h with heq | ⟨c, hstep, _⟩
  · exact absurd heq (by decide)
  · obtain ⟨hk, hnz⟩ := hstep
    have hw : c2wmap.tile_walkable c.1 c.2 = true := by
      by_contra hwf
      rw [cost_grid_eq, if_neg hwf] at hnz
      exact hnz rfl
    obtain ⟨h1, h2⟩ := c2w_blocked c.1 c.2 hw
    omega

/-- C2 counterexample: on c2wmap the acting entity itself blocks movement on
the only walkable cell, so the code's cost grid reads 11 there while the
claim's construction — excluding the acting entity — reads 1. -/
theorem cost_grid_counts_acting_entity :
    cost_grid c2wmap (0, 0) = 11 ∧ cost_grid_spec c2wmap 1 (0, 0) = 1
    ∧ ¬ ((11 : Int) = 1) := by
  decide

/-- Witness for the pathfinding theorem: the acting blocker's own cell costs
11 on c2wmap, and the unreachable destination (2, 0) yields the empty
path. -/
theorem get_path_to_properties_witness :
    cost_grid c2wmap (0, 0) = 11 ∧ get_path_to c2wmap 1 2 0 = [] :=
  ⟨((get_path_to_properties c2wmap 1 2 0).1 (0, 0)).trans (by decide),
   (get_path_to_properties c2wmap 1 2 0).2.2 c2w_unreachable⟩
